import Mathlib

/-!
Verification of the code-pilot agent orchestration engine against its
specification.  The definitions below are a shallow embedding of the
TypeScript sources:

* `McpAgent.run` and its helpers (`src/lib/mcp-agent.ts` and the
  verification-capable revision in `src/unnamed/part_005`) are modelled as a
  pure function from an environment describing the outcomes of every external
  call (sandbox init, clone, file listing, LLM planning, branch creation,
  implementation, git status/add/commit, push, PR creation) to the ordered
  list of emitted stream events plus the final bookkeeping state.
* `VirtualSandbox` path handling (`src/lib/utils/file-ops.ts`) and the
  `E2BSandbox` tools (`src/unnamed/part_003`) are modelled with an explicit
  Node-style path resolver.
* `OpenAIClient.executeWithTools` (`src/unnamed/part_007`) is modelled as a
  fuel-bounded loop over an oracle of per-round model responses.
-/

/-- Event types of the stream (the `type` field of `StreamEvent`). -/
inductive EventType
  | start
  | sandbox_create
  | progress
  | analyze
  | analysis_update
  | plan
  | implement
  | tool_call
  | file_change
  | debug
  | pr_create
  | pr_created
  | pause_for_verification
  | complete
  | error
  deriving DecidableEq, Repr

/-- A stream event: its type and the optional 0-100 progress value. -/
structure Event where
  type : EventType
  progress : Option Nat := none
  deriving DecidableEq, Repr

/-- Event with no progress value. -/
def ev (t : EventType) : Event := { type := t }

/-- Event carrying a progress value. -/
def evp (t : EventType) (p : Nat) : Event := { type := t, progress := some p }

/-- The event types of a trace. -/
def eventTypes (l : List Event) : List EventType := l.map (·.type)

/-- Number of error-typed events in a trace. -/
def countErrors (l : List Event) : Nat :=
  (l.filter (fun e => e.type = EventType.error)).length

/-- The progress values carried by the events of a trace, in order. -/
def progressValues (l : List Event) : List Nat := l.filterMap (·.progress)

/-- True when a string contains the given non-empty pattern as a substring
(`splitOn` yields more than one part exactly when the pattern occurs). -/
def strContains (s pat : String) : Bool := (s.splitOn pat).length > 1

/-- From `McpAgent.createPlan`: keyword intent test for backend-focused
requests (`prompt.toLowerCase().includes('backend') || ... 'server' || 'api'
|| 'database'`). -/
def isBackendFocused (prompt : String) : Bool :=
  let p := prompt.toLower
  strContains p "backend" || strContains p "server" ||
    strContains p "api" || strContains p "database"

/-- From `McpAgent.createPlan`: keyword intent test for frontend-focused
requests (`'frontend' || 'ui' || 'client' || 'react' || 'vue'`). -/
def isFrontendFocused (prompt : String) : Bool :=
  let p := prompt.toLower
  strContains p "frontend" || strContains p "ui" ||
    strContains p "client" || strContains p "react" || strContains p "vue"

/-- The analysis fields consulted by the planner fallbacks
(`analysis.backendFiles`, `analysis.frontendFiles`, `analysis.keyFiles`). -/
structure AnalysisCtx where
  backendFiles : List String
  frontendFiles : List String
  keyFiles : List String
  deriving DecidableEq, Repr

/-- An implementation plan as used by the orchestrator: the two file lists
that matter for the empty-plan invariant. -/
structure ImplementationPlan where
  filesToModify : List String
  newFiles : List String
  deriving DecidableEq, Repr

/-- The successfully JSON-parsed LLM plan shape in `createPlan`:
`filesToModify` and `newFiles` arrays (absent fields modelled as `[]`),
whether a `steps` array was present, and the file names extractable from that
`steps` array. -/
structure ParsedAiPlan where
  filesToModify : List String
  newFiles : List String
  hasSteps : Bool
  stepsFiles : List String
  deriving DecidableEq, Repr

/-- From `McpAgent.createPlan`: when a `steps` array is present and
`filesToModify` is empty, the file names mentioned by the steps become
`filesToModify`. -/
def stepsExtract (ai : ParsedAiPlan) : ParsedAiPlan :=
  if ai.hasSteps && ai.filesToModify.isEmpty then
    { ai with filesToModify := ai.stepsFiles }
  else ai

/-- From `McpAgent.createPlan`: when `filesToModify` is still empty, fall
back to the first three backend (resp. frontend) files of the analysis when
the request is backend- (resp. frontend-) focused. -/
def contextFallback (isB isF : Bool) (an : AnalysisCtx) (ai : ParsedAiPlan) :
    ParsedAiPlan :=
  if ai.filesToModify.isEmpty then
    if isB && !an.backendFiles.isEmpty then
      { ai with filesToModify := an.backendFiles.take 3 }
    else if isF && !an.frontendFiles.isEmpty then
      { ai with filesToModify := an.frontendFiles.take 3 }
    else ai
  else ai

/-- From the `catch` branch of `McpAgent.createPlan`: the fallback plan built
when planning failed, using backend files, frontend files, or
`analysis.keyFiles?.slice(0, 3) || []`; `newFiles` is always empty here. -/
def fallbackPlan (isB isF : Bool) (an : AnalysisCtx) : ImplementationPlan :=
  { filesToModify :=
      if isB && !an.backendFiles.isEmpty then an.backendFiles.take 3
      else if isF && !an.frontendFiles.isEmpty then an.frontendFiles.take 3
      else an.keyFiles.take 3,
    newFiles := [] }

/-- `McpAgent.createPlan` (src/lib/mcp-agent.ts lines 644-803, identical in
src/unnamed/part_005 lines 807-956): `parsed` is the outcome of the LLM call
plus strict JSON parsing (`none` when the call threw, no JSON was found, or
parsing failed).  On the parsed path the steps extraction and the context
fallback run, and a plan that is still empty is thrown - which the outer
catch of the same function turns into `fallbackPlan`.  The function never
throws to its caller. -/
def createPlanCore (prompt : String) (an : AnalysisCtx)
    (parsed : Option ParsedAiPlan) : ImplementationPlan :=
  let isB := isBackendFocused prompt
  let isF := isFrontendFocused prompt
  match parsed with
  | none => fallbackPlan isB isF an
  | some ai0 =>
    let ai := contextFallback isB isF an (stepsExtract ai0)
    if ai.filesToModify.isEmpty && ai.newFiles.isEmpty then
      fallbackPlan isB isF an
    else
      { filesToModify := ai.filesToModify, newFiles := ai.newFiles }

/-- Outcomes of the external calls made by one `McpAgent.run` invocation.
`statusResult = some b` models a successful `git_status` reporting
`hasChanges = b`; `none` models a failed or throwing `git_status`, after
which the agent assumes changes exist. -/
structure RunEnv where
  useE2B : Bool
  verificationMode : Bool
  initOk : Bool
  cloneOk : Bool
  listFilesOk : Bool
  prompt : String
  analysisCtx : AnalysisCtx
  parsedPlan : Option ParsedAiPlan
  branchOk : Bool
  implementOk : Bool
  statusResult : Option Bool
  addOk : Bool
  commitOk : Bool
  commitSkipped : Bool
  pushOk : Bool
  prOk : Bool

/-- Events yielded by `checkForChanges` and the boolean it returns: a first
`debug` event, then `file_change` when changes were detected, `debug`
otherwise; on a failed or throwing `git_status` it assumes changes exist. -/
def checkForChangesRun (statusResult : Option Bool) : List Event × Bool :=
  match statusResult with
  | some true => ([ev .debug, ev .file_change], true)
  | some false => ([ev .debug, ev .debug], false)
  | none => ([ev .debug, ev .debug], true)

/-- Events of `implementPlan` (which delegates to `implementWithTools`) and
whether it threw.  On success five `implement` events are yielded; on failure
the three leading `implement` events are followed by one `error` event from
`implementWithTools` and one from `implementPlan`, and the exception is
rethrown. -/
def implementPlanRun (ok : Bool) : List Event × Bool :=
  if ok then
    ([ev .implement, ev .implement, ev .implement, ev .implement,
      ev .implement], false)
  else
    ([ev .implement, ev .implement, ev .implement, ev .error, ev .error],
      true)

/-- The push / PR tail of `run`: `(events, threw)`.  A push failure throws; a
PR-creation failure is caught locally and yields one `error` event without
rethrowing; success yields `pr_created` and `complete`. -/
def pushPrStage (e : RunEnv) : List Event × Bool :=
  if !e.pushOk then ([evp .progress 90], true)
  else if e.prOk then
    ([evp .progress 90, evp .progress 95, ev .pr_create, ev .pr_created,
      evp .complete 100], false)
  else
    ([evp .progress 90, evp .progress 95, ev .pr_create, ev .error], false)

/-- The staging / commit / pause-or-publish tail of `run`, starting at the
`checkForChanges` call: `(events, threw, paused)`. -/
def commitStage (e : RunEnv) : List Event × Bool × Bool :=
  let cc := checkForChangesRun e.statusResult
  if cc.2 && !e.addOk then (cc.1 ++ [ev .tool_call], true, false)
  else if cc.2 && !e.commitOk && !e.commitSkipped then
    (cc.1 ++ [ev .tool_call, ev .tool_call], true, false)
  else
    let evs := cc.1 ++ (if cc.2 then [ev .tool_call, ev .tool_call] else [])
    if e.verificationMode then
      (evs ++ [evp .pause_for_verification 85], false, true)
    else
      let p := pushPrStage e
      (evs ++ p.1, p.2, false)

/-- The implementation tail of `run`, starting at the `implementPlan` call:
`(events, threw, paused)`. -/
def implementStage (e : RunEnv) : List Event × Bool × Bool :=
  let ip := implementPlanRun e.implementOk
  if ip.2 then (ip.1, true, false)
  else
    let c := commitStage e
    (ip.1 ++ evp .progress 85 :: c.1, c.2.1, c.2.2)

/-- Result of the body of `run` (the region inside its top-level `try`):
events yielded, whether an exception reached the top-level catch, whether the
run returned at the verification pause, and the plan if planning was
reached. -/
structure BodyOut where
  events : List Event
  threw : Bool
  paused : Bool
  plan : Option ImplementationPlan

/-- The fixed events yielded between a successful clone and the `git_branch`
call: the clone progress events, the three `analyze` events, the
`analysis_update`, the three `plan` events, and the progress events 50 and
80 (the feature-branch progress event precedes the branch creation). -/
def preBranchEvs : List Event :=
  [ev .sandbox_create, evp .progress 10, evp .progress 20, ev .analyze,
   ev .analyze, ev .analyze, evp .analysis_update 40, ev .plan, ev .plan,
   ev .plan, evp .progress 50, evp .progress 80]

/-- The body of `McpAgent.run` (src/unnamed/part_005 lines 112-323; the
revision in src/lib/mcp-agent.ts is the special case
`verificationMode = false`).  Clone, file listing, branch creation,
implementation, staging with pending changes, commit, and push failures
throw; planning never throws (the planner returns a fallback plan instead);
a PR-creation failure is caught locally. -/
def agentBody (e : RunEnv) : BodyOut :=
  if !e.initOk then { events := [], threw := true, paused := false, plan := none }
  else if !e.cloneOk then
    { events := [ev .sandbox_create, evp .progress 10], threw := true,
      paused := false, plan := none }
  else if !e.listFilesOk then
    { events := [ev .sandbox_create, evp .progress 10, evp .progress 20,
        ev .analyze], threw := true, paused := false, plan := none }
  else
    let plan := createPlanCore e.prompt e.analysisCtx e.parsedPlan
    if !e.branchOk then
      { events := preBranchEvs, threw := true, paused := false,
        plan := some plan }
    else
      let s := implementStage e
      { events := preBranchEvs ++ evp .progress 60 :: s.1, threw := s.2.1,
        paused := s.2.2, plan := some plan }

/-- Result of one `McpAgent.run` invocation: the full event trace, whether
the `finally` block cleaned the sandbox up, whether the session id was
registered in the process-wide `SandboxManager` (done in the constructor,
and only when the E2B backend is selected), whether the run suspended at the
verification pause, and the plan. -/
structure RunResult where
  events : List Event
  cleanedUp : Bool
  sessionRegistered : Bool
  paused : Bool
  plan : Option ImplementationPlan

/-- `McpAgent.run` as a whole: the initial `start` event, the body, one
`error` event from the top-level catch when the body threw, and the
`finally` block which cleans the sandbox up exactly when verification mode
is off. -/
def agentRun (e : RunEnv) : RunResult :=
  let b := agentBody e
  { events := ev .start :: (b.events ++ if b.threw then [ev .error] else []),
    cleanedUp := !e.verificationMode,
    sessionRegistered := e.useE2B,
    paused := b.paused,
    plan := b.plan }

/-- The run reaches the implement phase: sandbox init, clone, file listing
and branch creation all succeeded. -/
def reachesImplement (e : RunEnv) : Bool :=
  e.initOk && e.cloneOk && e.listFilesOk && e.branchOk

/-- The run reaches and completes the implement phase but the implementation
fails. -/
def implementFails (e : RunEnv) : Bool :=
  reachesImplement e && !e.implementOk

/-- The staging / commit step succeeds (vacuously when there are no pending
changes). -/
def stagingOk (e : RunEnv) : Bool :=
  !(checkForChangesRun e.statusResult).2 ||
    (e.addOk && (e.commitOk || e.commitSkipped))

/-- The run reaches the end of the commit phase (where it either pauses for
verification or proceeds to push). -/
def reachesCommitEnd (e : RunEnv) : Bool :=
  reachesImplement e && e.implementOk && stagingOk e

/-- The run reaches the push phase. -/
def reachesPush (e : RunEnv) : Bool :=
  reachesCommitEnd e && !e.verificationMode

/-- Fatal failures that are reported by exactly one error event: sandbox
init, clone, file listing, branch creation, staging, commit and push
failures, plus the locally-caught PR-creation failure. -/
def singleErrorFatal (e : RunEnv) : Bool :=
  !e.initOk || (e.initOk && !e.cloneOk) ||
    (e.initOk && e.cloneOk && !e.listFilesOk) ||
    (e.initOk && e.cloneOk && e.listFilesOk && !e.branchOk) ||
    (reachesImplement e && e.implementOk && !stagingOk e) ||
    (reachesPush e && !e.pushOk) ||
    (reachesPush e && e.pushOk && !e.prOk)

/-- A fully successful non-verification run. -/
def successRun (e : RunEnv) : Bool :=
  reachesPush e && e.pushOk && e.prOk

/-- The primary phase markers of testable property P1. -/
def primaryMarkers : List EventType :=
  [.start, .sandbox_create, .progress, .analyze, .plan, .implement,
   .pr_create, .pr_created, .complete]

/-- A trace filtered to the primary phase markers. -/
def primaryTrace (l : List Event) : List EventType :=
  (eventTypes l).filter (· ∈ primaryMarkers)

/-- Drop the leading maximal run of events of type `t`. -/
def dropBlock (t : EventType) : List EventType → List EventType
  | [] => []
  | x :: xs => if x = t then dropBlock t xs else x :: xs

/-- Match a phase pattern against a trace: each pattern entry stands for one
or more consecutive events of that type (the blocks of the patterns used
here always have pairwise distinct adjacent types, for which this greedy
matcher is exact). -/
def matchesSeq : List EventType → List EventType → Bool
  | [], l => l.isEmpty
  | _ :: _, [] => false
  | t :: ts, x :: xs =>
    if x = t then matchesSeq ts (dropBlock t xs) else false

/-- The phase pattern asserted by testable property P1. -/
def claimedPhasePattern : List EventType :=
  [.start, .sandbox_create, .progress, .analyze, .plan, .implement,
   .progress, .pr_create, .pr_created, .complete]

/-- The phase pattern the code actually produces: an additional progress
block (values 50, 80, 60) sits between the plan and implement markers. -/
def actualPhasePattern : List EventType :=
  [.start, .sandbox_create, .progress, .analyze, .plan, .progress,
   .implement, .progress, .pr_create, .pr_created, .complete]

/-- `SandboxManager.registerSandbox` (src/unnamed/part_004 lines 93-102) on
the set of registered session ids: a no-op when the id is already present. -/
def registerSandbox (sessions : List String) (sid : String) : List String :=
  if sessions.contains sid then sessions else sid :: sessions

/-- The registry contents after the `McpAgent` constructor (src/unnamed/
part_005 lines 34-52): the session id is registered only when the E2B
backend is selected. -/
def constructorRegistry (sessions : List String) (sid : String)
    (useE2B : Bool) : List String :=
  if useE2B then registerSandbox sessions sid else sessions

/-- A registry lookup by session id, as a boolean. -/
def hasSession (sessions : List String) (sid : String) : Bool :=
  sessions.contains sid

/-- Split a character list at every occurrence of the separator. -/
def splitOnChar (c : Char) : List Char → List (List Char)
  | [] => [[]]
  | x :: xs =>
    let r := splitOnChar c xs
    if x = c then [] :: r
    else
      match r with
      | [] => [[x]]
      | y :: ys => (x :: y) :: ys

/-- The slash-separated segments of a path string. -/
def pathSegs (s : String) : List String :=
  (splitOnChar '/' s.data).map String.mk

/-- String prefix test (the semantics of JavaScript `startsWith`). -/
def strStartsWith (s p : String) : Bool := p.data.isPrefixOf s.data

/-- One step of POSIX path normalization: empty and `.` segments are
dropped, `..` removes the previous segment (and is dropped at the root),
other segments are kept. -/
def normStep (acc : List String) (seg : String) : List String :=
  if seg = "" || seg = "." then acc
  else if seg = ".." then acc.dropLast
  else acc ++ [seg]

/-- Normalize an absolute path into its list of segments. -/
def resolveSegs (s : String) : List String :=
  (pathSegs s).foldl normStep []

/-- Render a segment list as an absolute path. -/
def joinAbs (segs : List String) : String :=
  "/" ++ String.intercalate "/" segs

/-- Node `path.resolve(base, rel)` for an absolute `base`: an absolute `rel`
is normalized on its own, otherwise `base + "/" + rel` is normalized. -/
def nodeResolve (base rel : String) : String :=
  if strStartsWith rel "/" then joinAbs (resolveSegs rel)
  else joinAbs (resolveSegs (base ++ "/" ++ rel))

/-- Node `path.resolve(base)` for an absolute `base`. -/
def resolvedRoot (base : String) : String := joinAbs (resolveSegs base)

/-- `VirtualSandbox.getSecurePath` (src/lib/utils/file-ops.ts lines
1140-1149): resolve the argument against the working directory and throw
unless the result starts with the resolved working directory. -/
def getSecurePath (workDir rel : String) : Except String String :=
  let fullPath := nodeResolve workDir rel
  if strStartsWith fullPath (resolvedRoot workDir) then Except.ok fullPath
  else Except.error ("Path traversal detected: " ++ rel)

/-- Observable outcome of a path-accepting sandbox tool: the success flag of
the returned Tool Result, and whether any filesystem operation was
attempted. -/
structure PathToolOut where
  success : Bool
  attemptedFsOp : Bool
  deriving DecidableEq, Repr

/-- A `VirtualSandbox` tool that resolves its path argument through
`getSecurePath` (`read_file`, `write_file`, `delete_file`, `list_files`,
and the `git_*`, `get_package_info` and `execute_shell` tools resolving
`repoPath` or `workingDir` - every path-accepting tool except
`clone_repository`, see `vsCloneRepository`): each computes `getSecurePath`
before touching the filesystem; the throw from `getSecurePath` is caught by
`callTool`, which returns a failed Tool Result.  `fsOk` is whether the
underlying filesystem or git operation succeeds once attempted. -/
def vsPathTool (workDir rel : String) (fsOk : Bool) : PathToolOut :=
  match getSecurePath workDir rel with
  | Except.error _ => { success := false, attemptedFsOp := false }
  | Except.ok _ => { success := fsOk, attemptedFsOp := true }

/-- Node `path.join(base, rel)` for an absolute `base`: the parts are
concatenated with a separator and the result is normalized (`join`, unlike
`resolve`, gives no special treatment to a leading slash on `rel`). -/
def nodeJoin (base rel : String) : String :=
  joinAbs (resolveSegs (base ++ "/" ++ rel))

/-- The clone target computed by the `VirtualSandbox` `clone_repository`
tool (src/lib/utils/file-ops.ts line 450): `path.join(this.workDir,
destination)` - `getSecurePath` is never consulted and no traversal check
is performed. -/
def vsCloneFullPath (workDir destination : String) : String :=
  nodeJoin workDir destination

/-- The `VirtualSandbox` `clone_repository` tool (src/lib/utils/file-ops.ts
lines 447-493): it runs `fs.mkdir` on the parent of `vsCloneFullPath` and
`git clone` into that path unconditionally; success mirrors whether the
clone (and the repository-size check) succeeded.  There is no path-based
rejection branch. -/
def vsCloneRepository (workDir destination : String) (cloneOk : Bool) :
    PathToolOut :=
  let _fullPath := vsCloneFullPath workDir destination
  { success := cloneOk, attemptedFsOp := true }

/-- The working directory of `E2BSandbox` (src/unnamed/part_003 line 10). -/
def e2bWorkDir : String := "/tmp/repo"

/-- The full path computed by the `E2BSandbox` `write_file` tool
(src/unnamed/part_003 line 266): an absolute argument is used as-is, a
relative one is concatenated onto the working directory; no traversal check
is performed. -/
def e2bWriteFullPath (rel : String) : String :=
  if strStartsWith rel "/" then rel else e2bWorkDir ++ "/" ++ rel

/-- The `E2BSandbox` `write_file` tool (src/unnamed/part_003 lines 248-327):
it always runs the Python write at `e2bWriteFullPath rel`; success mirrors
whether the write succeeded (`WRITE_SUCCESS` in the output).  There is no
path-based rejection branch. -/
def e2bWriteFile (rel : String) (writeOk : Bool) : PathToolOut :=
  let _fullPath := e2bWriteFullPath rel
  { success := writeOk, attemptedFsOp := true }

/-- The tool result envelope, reduced to the fields the claims mention. -/
structure ToolResultE where
  success : Bool
  error : Option String := none
  deriving DecidableEq, Repr

/-- Outcome of a tool executor: it either returns a Tool Result or throws. -/
inductive ExecOutcome
  | returns (r : ToolResultE)
  | throws (msg : String)
  deriving DecidableEq, Repr

/-- The `VirtualSandbox` tool catalogue (src/lib/utils/file-ops.ts,
`initializeTools`). -/
def vsToolNames : List String :=
  ["clone_repository", "read_file", "write_file", "list_files",
   "delete_file", "git_status", "git_add", "git_commit", "git_branch",
   "git_push", "git_apply_patch", "git_revert", "execute_shell",
   "get_package_info"]

/-- The `E2BSandbox` tool catalogue (src/unnamed/part_003,
`initializeTools`). -/
def e2bToolNames : List String :=
  ["clone_repository", "list_files", "read_file", "write_file", "git_add",
   "git_commit", "git_push", "git_branch"]

/-- `VirtualSandbox.callTool` (src/lib/utils/file-ops.ts lines 1162-1182):
first the lazy `initialize` (whose failure throws out of `callTool`), then
the catalogue lookup (unknown names throw), then the tool executor inside a
try/catch that converts any throw into a failed Tool Result. -/
def vsCallTool (initOk : Bool) (name : String) (outcome : ExecOutcome) :
    Except String ToolResultE :=
  if !initOk then Except.error "Failed to initialize sandbox"
  else if name ∈ vsToolNames then
    match outcome with
    | ExecOutcome.returns r => Except.ok r
    | ExecOutcome.throws m =>
      Except.ok { success := false,
                  error := some ("Tool " ++ name ++ " failed: " ++ m) }
  else Except.error ("Tool not found: " ++ name)

/-- `E2BSandbox.callTool` (src/unnamed/part_003 lines 687-697): the
catalogue lookup throws for unknown names; each tool executor starts with
`ensureSandbox` (whose failure throws out of `callTool`, since it runs
before the executor's try block) and otherwise catches its own domain errors
and returns a Tool Result. -/
def e2bCallTool (initOk : Bool) (name : String) (result : ToolResultE) :
    Except String ToolResultE :=
  if name ∈ e2bToolNames then
    if !initOk then Except.error "Failed to initialize E2B sandbox"
    else Except.ok result
  else Except.error ("Tool not found: " ++ name)

/-- The token budget optionally handed to `executeWithTools`. -/
structure Budget where
  tokensRemaining : Nat
  secondsRemaining : Nat
  deriving DecidableEq, Repr

/-- One tool call requested by the model in a round: its name and the
outcome of executing it (the executor either returns a serialized result or
throws, which also covers a failed parse of the call arguments). -/
structure ToolCallSpec where
  name : String
  execOutcome : Except String String
  deriving Repr

/-- The model response of one round of the tool-calling loop. -/
inductive ModelResp
  | apiError (msg : String)
  | noMessage
  | content (s : String)
  | toolCalls (calls : List ToolCallSpec)
  deriving Repr

/-- One round of the oracle: the model response and the token usage the
round adds to the running total. -/
structure RoundSpec where
  resp : ModelResp
  tokens : Nat
  deriving Repr

/-- From `executeWithTools` (src/unnamed/part_007 lines 252-256): tool
results longer than 500 characters are truncated before being fed back. -/
def truncateToolResult (s : String) : String :=
  if s.length > 500 then s.take 500 ++ "...[truncated]" else s

/-- A tool-turn message appended to the conversation: the truncated result
of a successful call, or the serialized error of a failed one. -/
inductive ToolMsg
  | ok (content : String)
  | err (content : String)
  deriving DecidableEq, Repr

/-- The tool message produced for one tool call (src/unnamed/part_007 lines
238-272): a throwing executor is caught and reported as an error-content
message; a returned result is serialized and truncated. -/
def toolMsgOf (c : ToolCallSpec) : ToolMsg :=
  match c.execOutcome with
  | Except.ok r => ToolMsg.ok (truncateToolResult r)
  | Except.error m => ToolMsg.err m

/-- Why the tool-calling loop ended. -/
inductive EndReason
  | contentEnd
  | noMessageEnd
  | budgetEnd
  | fuelEnd
  | apiErrorEnd
  deriving DecidableEq, Repr

/-- Observable outcome of `executeWithTools`: the final content, the
tool-turn messages appended, the number of tool calls executed, the number
of model API calls made, and why the loop ended (`apiErrorEnd` means the
model API threw and the exception propagated to the caller). -/
structure LoopOut where
  result : String
  toolMsgs : List ToolMsg
  toolCallsMade : Nat
  modelCalls : Nat
  endReason : EndReason
  deriving DecidableEq, Repr

/-- The round bound of `executeWithTools` (src/unnamed/part_007 line 201):
`budget && budget.tokensRemaining < 5000 ? 5 : 16`. -/
def maxRoundsOf (budget : Option Budget) : Nat :=
  match budget with
  | some b => if b.tokensRemaining < 5000 then 5 else 16
  | none => 16

/-- The loop body of `executeWithTools` (src/unnamed/part_007 lines
203-284).  Per round: one model API call (a throw propagates); a missing
message breaks; plain content becomes the final result and breaks; tool
calls are executed sequentially, each appending one tool message (truncated
result or error content), after which the loop breaks if the accumulated
usage reached the token budget, and otherwise continues. -/
def runLoopGo (env : Nat → RoundSpec) (budget : Option Budget) :
    Nat → Nat → Nat → List ToolMsg → Nat → LoopOut
  | 0, r, _, msgs, calls =>
    { result := "", toolMsgs := msgs, toolCallsMade := calls,
      modelCalls := r, endReason := EndReason.fuelEnd }
  | fuel + 1, r, tot, msgs, calls =>
    let spec := env r
    match spec.resp with
    | ModelResp.apiError _ =>
      { result := "", toolMsgs := msgs, toolCallsMade := calls,
        modelCalls := r + 1, endReason := EndReason.apiErrorEnd }
    | ModelResp.noMessage =>
      { result := "", toolMsgs := msgs, toolCallsMade := calls,
        modelCalls := r + 1, endReason := EndReason.noMessageEnd }
    | ModelResp.content s =>
      { result := s, toolMsgs := msgs, toolCallsMade := calls,
        modelCalls := r + 1, endReason := EndReason.contentEnd }
    | ModelResp.toolCalls cs =>
      let msgs' := msgs ++ cs.map toolMsgOf
      let tot' := tot + spec.tokens
      let calls' := calls + cs.length
      match budget with
      | some b =>
        if tot' ≥ b.tokensRemaining then
          { result := "", toolMsgs := msgs', toolCallsMade := calls',
            modelCalls := r + 1, endReason := EndReason.budgetEnd }
        else runLoopGo env budget fuel (r + 1) tot' msgs' calls'
      | none => runLoopGo env budget fuel (r + 1) tot' msgs' calls'

/-- `executeWithTools` as a whole: run the loop with the round bound as
fuel. -/
def runLoop (env : Nat → RoundSpec) (budget : Option Budget) : LoopOut :=
  runLoopGo env budget (maxRoundsOf budget) 0 0 [] 0

/-- An analysis with no backend, frontend, or key files (a repository in
which the heuristics recognize nothing). -/
def emptyCtx : AnalysisCtx :=
  { backendFiles := [], frontendFiles := [], keyFiles := [] }

/-- A run in which every external call succeeds, the planner LLM response is
unparseable (so the fallback plan is used), and the repository yields no
fallback files: a fully successful non-verification run with an empty
plan. -/
def envSuccess : RunEnv :=
  { useE2B := false, verificationMode := false, initOk := true,
    cloneOk := true, listFilesOk := true, prompt := "",
    analysisCtx := emptyCtx, parsedPlan := none, branchOk := true,
    implementOk := true, statusResult := some true, addOk := true,
    commitOk := true, commitSkipped := false, pushOk := true, prOk := true }

/-- A run in which only the implementation phase fails. -/
def envImplFail : RunEnv := { envSuccess with implementOk := false }

/-- A verification-mode run on the E2B backend that reaches the pause. -/
def envPauseE2B : RunEnv :=
  { envSuccess with verificationMode := true, useE2B := true }

/-- A verification-mode run on the local `VirtualSandbox` backend that
reaches the pause. -/
def envPauseLocal : RunEnv := { envSuccess with verificationMode := true }

/-- A verification-mode run whose clone fails before any pause. -/
def envVerifCloneFail : RunEnv :=
  { envSuccess with verificationMode := true, cloneOk := false }

/-- A round oracle whose first response is already plain content. -/
def envLoopContent : Nat → RoundSpec :=
  fun _ => { resp := ModelResp.content "done", tokens := 10 }

/-- A round oracle whose first round requests one tool call whose executor
throws, and whose second round returns plain content. -/
def envLoopToolErr : Nat → RoundSpec := fun r =>
  match r with
  | 0 => { resp := ModelResp.toolCalls
             [{ name := "write_file", execOutcome := Except.error "boom" }],
           tokens := 10 }
  | _ + 1 => { resp := ModelResp.content "ok", tokens := 10 }

/-- True when the event type is a legal terminal stream state. -/
def isTerminalType (t : EventType) : Bool :=
  t = EventType.complete || t = EventType.error ||
    t = EventType.pause_for_verification

/-- True when the trace ends in a legal terminal stream state. -/
def endsTerminal (l : List Event) : Bool :=
  match l.getLast? with
  | some x => isTerminalType x.type
  | none => false

theorem getLast?_append_single {α : Type} (l : List α) (a : α) :
    (l ++ [a]).getLast? = some a := by
  induction l with
  | nil => rfl
  | cons x xs ih =>
    cases xs with
    | nil => rfl
    | cons y ys =>
      simpa [List.getLast?_cons_cons] using ih

theorem runLoopGo_modelCalls_le (env : Nat → RoundSpec) (b : Option Budget) :
    ∀ (fuel r tot : Nat) (msgs : List ToolMsg) (calls : Nat),
      (runLoopGo env b fuel r tot msgs calls).modelCalls ≤ r + fuel := by
  intro fuel
  induction fuel with
  | zero => intro r tot msgs calls; simp [runLoopGo]
  | succ n ih =>
    intro r tot msgs calls
    simp only [runLoopGo]
    cases h : (env r).resp with
    | apiError m => simp
    | noMessage => simp
    | content s => simp
    | toolCalls cs =>
      cases b with
      | some bb =>
        by_cases hb : tot + (env r).tokens ≥ bb.tokensRemaining
        · simp [hb]
        · simp only [hb, if_false]
          have := ih (r + 1) (tot + (env r).tokens)
            (msgs ++ cs.map toolMsgOf) (calls + cs.length)
          omega
      | none =>
        have := ih (r + 1) (tot + (env r).tokens)
          (msgs ++ cs.map toolMsgOf) (calls + cs.length)
        exact le_trans this (by omega)

theorem runLoopGo_contentEnd (env : Nat → RoundSpec) (b : Option Budget) :
    ∀ (fuel r tot : Nat) (msgs : List ToolMsg) (calls : Nat),
      (runLoopGo env b fuel r tot msgs calls).endReason = EndReason.contentEnd →
      (env ((runLoopGo env b fuel r tot msgs calls).modelCalls - 1)).resp =
        ModelResp.content (runLoopGo env b fuel r tot msgs calls).result := by
  intro fuel
  induction fuel with
  | zero => intro r tot msgs calls h; simp [runLoopGo] at h
  | succ n ih =>
    intro r tot msgs calls
    simp only [runLoopGo]
    cases h : (env r).resp with
    | apiError m => intro hc; simp at hc
    | noMessage => intro hc; simp at hc
    | content s => intro _; simpa using h
    | toolCalls cs =>
      cases b with
      | some bb =>
        by_cases hb : tot + (env r).tokens ≥ bb.tokensRemaining
        · simp [hb]
        · simp only [hb, if_false]
          exact ih (r + 1) (tot + (env r).tokens)
            (msgs ++ cs.map toolMsgOf) (calls + cs.length)
      | none =>
        exact ih (r + 1) (tot + (env r).tokens)
          (msgs ++ cs.map toolMsgOf) (calls + cs.length)

theorem runLoopGo_apiError (env : Nat → RoundSpec) (b : Option Budget) :
    ∀ (fuel r tot : Nat) (msgs : List ToolMsg) (calls : Nat),
      (runLoopGo env b fuel r tot msgs calls).endReason =
        EndReason.apiErrorEnd →
      ∃ m, (env ((runLoopGo env b fuel r tot msgs calls).modelCalls - 1)).resp
          = ModelResp.apiError m := by
  intro fuel
  induction fuel with
  | zero => intro r tot msgs calls h; simp [runLoopGo] at h
  | succ n ih =>
    intro r tot msgs calls
    simp only [runLoopGo]
    cases h : (env r).resp with
    | apiError m => intro _; exact ⟨m, by simpa using h⟩
    | noMessage => intro hc; simp at hc
    | content s => intro hc; simp at hc
    | toolCalls cs =>
      cases b with
      | some bb =>
        by_cases hb : tot + (env r).tokens ≥ bb.tokensRemaining
        · simp [hb]
        · simp only [hb, if_false]
          exact ih (r + 1) (tot + (env r).tokens)
            (msgs ++ cs.map toolMsgOf) (calls + cs.length)
      | none =>
        exact ih (r + 1) (tot + (env r).tokens)
          (msgs ++ cs.map toolMsgOf) (calls + cs.length)

theorem toolMsgOf_ok_truncated (cs : List ToolCallSpec) (s : String)
    (h : ToolMsg.ok s ∈ cs.map toolMsgOf) : ∃ c, s = truncateToolResult c := by
  rcases List.mem_map.mp h with ⟨c, _, hc⟩
  cases hco : c.execOutcome with
  | ok rres =>
    refine ⟨rres, ?_⟩
    have : toolMsgOf c = ToolMsg.ok (truncateToolResult rres) := by
      simp [toolMsgOf, hco]
    rw [this] at hc
    exact (ToolMsg.ok.injEq _ _ ▸ hc.symm) ▸ rfl
  | error m =>
    have : toolMsgOf c = ToolMsg.err m := by simp [toolMsgOf, hco]
    rw [this] at hc
    cases hc

theorem runLoopGo_trunc (env : Nat → RoundSpec) (b : Option Budget) :
    ∀ (fuel r tot : Nat) (msgs : List ToolMsg) (calls : Nat),
      (∀ s, ToolMsg.ok s ∈ msgs → ∃ c, s = truncateToolResult c) →
      ∀ s, ToolMsg.ok s ∈ (runLoopGo env b fuel r tot msgs calls).toolMsgs →
        ∃ c, s = truncateToolResult c := by
  intro fuel
  induction fuel with
  | zero => intro r tot msgs calls hm s hs; exact hm s (by simpa [runLoopGo] using hs)
  | succ n ih =>
    intro r tot msgs calls hm
    simp only [runLoopGo]
    cases h : (env r).resp with
    | apiError m => intro s hs; exact hm s (by simpa using hs)
    | noMessage => intro s hs; exact hm s (by simpa using hs)
    | content s0 => intro s hs; exact hm s (by simpa using hs)
    | toolCalls cs =>
      have hm' : ∀ s, ToolMsg.ok s ∈ msgs ++ cs.map toolMsgOf →
          ∃ c, s = truncateToolResult c := by
        intro s hs
        rcases List.mem_append.mp hs with h1 | h2
        · exact hm s h1
        · exact toolMsgOf_ok_truncated cs s h2
      cases b with
      | some bb =>
        by_cases hb : tot + (env r).tokens ≥ bb.tokensRemaining
        · intro s hs
          exact hm' s (by simpa [hb] using hs)
        · simp only [hb, if_false]
          exact ih (r + 1) (tot + (env r).tokens)
            (msgs ++ cs.map toolMsgOf) (calls + cs.length) hm'
      | none =>
        exact ih (r + 1) (tot + (env r).tokens)
          (msgs ++ cs.map toolMsgOf) (calls + cs.length) hm'

theorem runLoopGo_msgs_sub (env : Nat → RoundSpec) (b : Option Budget) :
    ∀ (fuel r tot : Nat) (msgs : List ToolMsg) (calls : Nat) (x : ToolMsg),
      x ∈ msgs → x ∈ (runLoopGo env b fuel r tot msgs calls).toolMsgs := by
  intro fuel
  induction fuel with
  | zero => intro r tot msgs calls x hx; simpa [runLoopGo] using hx
  | succ n ih =>
    intro r tot msgs calls x hx
    simp only [runLoopGo]
    cases h : (env r).resp with
    | apiError m => simpa using hx
    | noMessage => simpa using hx
    | content s => simpa using hx
    | toolCalls cs =>
      have hx' : x ∈ msgs ++ cs.map toolMsgOf := List.mem_append.mpr (Or.inl hx)
      cases b with
      | some bb =>
        by_cases hb : tot + (env r).tokens ≥ bb.tokensRemaining
        · simpa [hb] using hx'
        · simp only [hb, if_false]
          exact ih (r + 1) (tot + (env r).tokens)
            (msgs ++ cs.map toolMsgOf) (calls + cs.length) x hx'
      | none =>
        exact ih (r + 1) (tot + (env r).tokens)
          (msgs ++ cs.map toolMsgOf) (calls + cs.length) x hx'

theorem runLoopGo_round_msgs (env : Nat → RoundSpec) (b : Option Budget) :
    ∀ (fuel r tot : Nat) (msgs : List ToolMsg) (calls : Nat)
      (rr : Nat) (cs : List ToolCallSpec),
      r ≤ rr → rr < (runLoopGo env b fuel r tot msgs calls).modelCalls →
      (env rr).resp = ModelResp.toolCalls cs →
      ∀ c ∈ cs, toolMsgOf c ∈ (runLoopGo env b fuel r tot msgs calls).toolMsgs := by
  intro fuel
  induction fuel with
  | zero =>
    intro r tot msgs calls rr cs hle hlt _ c _
    simp [runLoopGo] at hlt
    omega
  | succ n ih =>
    intro r tot msgs calls rr cs hle hlt hresp c hc
    revert hlt
    simp only [runLoopGo]
    cases h : (env r).resp with
    | apiError m =>
      intro hlt
      simp at hlt
      have : rr = r := by omega
      rw [this, h] at hresp
      cases hresp
    | noMessage =>
      intro hlt
      simp at hlt
      have : rr = r := by omega
      rw [this, h] at hresp
      cases hresp
    | content s =>
      intro hlt
      simp at hlt
      have : rr = r := by omega
      rw [this, h] at hresp
      cases hresp
    | toolCalls cs0 =>
      have hmem : toolMsgOf c ∈ msgs ++ cs0.map toolMsgOf ∨ rr > r := by
        rcases Nat.lt_or_ge r (rr) with hgt | hge
        · exact Or.inr hgt
        · have : rr = r := by omega
          rw [this, h] at hresp
          cases hresp
          exact Or.inl (List.mem_append.mpr (Or.inr (List.mem_map.mpr ⟨c, hc, rfl⟩)))
      cases b with
      | some bb =>
        by_cases hb : tot + (env r).tokens ≥ bb.tokensRemaining
        · intro hlt
          simp [hb] at hlt ⊢
          rcases hmem with hmem | hgt
          · simpa using hmem
          · omega
        · simp only [hb, if_false]
          intro hlt
          rcases hmem with hmem | hgt
          · exact runLoopGo_msgs_sub env (some bb) n (r + 1)
              (tot + (env r).tokens) (msgs ++ cs0.map toolMsgOf)
              (calls + cs0.length) _ hmem
          · exact ih (r + 1) (tot + (env r).tokens)
              (msgs ++ cs0.map toolMsgOf) (calls + cs0.length) rr cs hgt hlt
              hresp c hc
      | none =>
        intro hlt
        rcases hmem with hmem | hgt
        · exact runLoopGo_msgs_sub env none n (r + 1)
            (tot + (env r).tokens) (msgs ++ cs0.map toolMsgOf)
            (calls + cs0.length) _ hmem
        · exact ih (r + 1) (tot + (env r).tokens)
            (msgs ++ cs0.map toolMsgOf) (calls + cs0.length) rr cs hgt hlt
            hresp c hc

/-- C8: every invocation of the tool-calling loop makes at most `N` model
calls, where `N` is 16 normally and 5 when the supplied token budget is
below 5000; each round either executes the requested tool calls (feeding
back truncated tool results as tool-turn messages) or, when the model
returns plain content with no tool calls, terminates with that content as
the final answer. -/
theorem c8_bounded_tool_loop (env : Nat → RoundSpec) (b : Option Budget) :
    (runLoop env b).modelCalls ≤ maxRoundsOf b ∧
    maxRoundsOf none = 16 ∧
    (∀ t s, maxRoundsOf (some { tokensRemaining := t, secondsRemaining := s })
      = if t < 5000 then 5 else 16) ∧
    ((runLoop env b).endReason = EndReason.contentEnd →
      (env ((runLoop env b).modelCalls - 1)).resp =
        ModelResp.content (runLoop env b).result) ∧
    (∀ s, ToolMsg.ok s ∈ (runLoop env b).toolMsgs →
      ∃ c, s = truncateToolResult c) := by
  refine ⟨?_, rfl, fun t s => rfl, ?_, ?_⟩
  · simpa using runLoopGo_modelCalls_le env b (maxRoundsOf b) 0 0 [] 0
  · exact runLoopGo_contentEnd env b (maxRoundsOf b) 0 0 [] 0
  · exact runLoopGo_trunc env b (maxRoundsOf b) 0 0 [] 0
      (by intro s hs; cases hs)

/-- Witness for C8: with an oracle that answers plain content in the first
round, the loop makes one model call (within the bound) and returns that
content. -/
theorem c8_bounded_tool_loop_witness :
    (runLoop envLoopContent none).modelCalls ≤ maxRoundsOf none ∧
    (envLoopContent ((runLoop envLoopContent none).modelCalls - 1)).resp =
      ModelResp.content (runLoop envLoopContent none).result := by
  refine ⟨(c8_bounded_tool_loop envLoopContent none).1, ?_⟩
  exact (c8_bounded_tool_loop envLoopContent none).2.2.2.1 (by rfl)

/-- C9: a failure of an individual tool call (the executor throwing, which
also covers a failed result conversion) is converted into an error-content
tool message appended to the conversation and never ends the loop; the loop
ends with a propagating exception only when the model API call itself
threw. -/
theorem c9_tool_failures_not_raised (env : Nat → RoundSpec)
    (b : Option Budget) :
    ((runLoop env b).endReason = EndReason.apiErrorEnd →
      ∃ m, (env ((runLoop env b).modelCalls - 1)).resp =
        ModelResp.apiError m) ∧
    ((∀ r m, (env r).resp ≠ ModelResp.apiError m) →
      (runLoop env b).endReason ≠ EndReason.apiErrorEnd) ∧
    (∀ rr cs, rr < (runLoop env b).modelCalls →
      (env rr).resp = ModelResp.toolCalls cs →
      ∀ c ∈ cs, ∀ m, c.execOutcome = Except.error m →
        ToolMsg.err m ∈ (runLoop env b).toolMsgs) := by
  refine ⟨?_, ?_, ?_⟩
  · exact runLoopGo_apiError env b (maxRoundsOf b) 0 0 [] 0
  · intro hno hend
    rcases runLoopGo_apiError env b (maxRoundsOf b) 0 0 [] 0 hend with ⟨m, hm⟩
    exact hno _ m hm
  · intro rr cs hlt hresp c hc m hm
    have hmem := runLoopGo_round_msgs env b (maxRoundsOf b) 0 0 [] 0 rr cs
      (Nat.zero_le _) hlt hresp c hc
    have hmsg : toolMsgOf c = ToolMsg.err m := by simp [toolMsgOf, hm]
    rwa [hmsg] at hmem

/-- Witness for C9: with an oracle whose first round requests a throwing
tool call and whose second round answers content, the error message is fed
back into the conversation and no exception propagates. -/
theorem c9_tool_failures_not_raised_witness :
    ToolMsg.err "boom" ∈ (runLoop envLoopToolErr none).toolMsgs ∧
    (runLoop envLoopToolErr none).endReason ≠ EndReason.apiErrorEnd := by
  constructor
  · exact (c9_tool_failures_not_raised envLoopToolErr none).2.2 0
      [{ name := "write_file", execOutcome := Except.error "boom" }]
      (by decide) (by rfl)
      { name := "write_file", execOutcome := Except.error "boom" }
      (by simp) "boom" rfl
  · exact (c9_tool_failures_not_raised envLoopToolErr none).2.1
      (by
        intro r m
        cases r with
        | zero => simp [envLoopToolErr]
        | succ k => simp [envLoopToolErr])

theorem agentRun_last_error_of_threw (e : RunEnv)
    (h : (agentBody e).threw = true) :
    (agentRun e).events.getLast? = some (ev .error) := by
  simp only [agentRun, h, if_true]
  exact getLast?_append_single (ev .start :: (agentBody e).events) (ev .error)

/-- C3: for every fatal run failure the stream ends with an error event, and
the stream always ends in `complete`, `error`, or `pause_for_verification`;
however the claim that exactly one error-typed event is emitted fails for
implementation failures: `implementWithTools` and `implementPlan` each yield
an `error` event before rethrowing to the top-level handler, so an
implementation failure emits three error events, while the other fatal
failures (sandbox init, clone, file listing, branch creation, staging,
commit, push) and the locally-caught PR-creation failure emit exactly
one. -/
theorem c3_amended_error_accounting (e : RunEnv) :
    endsTerminal (agentRun e).events = true ∧
    countErrors (agentRun e).events =
      (if implementFails e = true then 3
       else if singleErrorFatal e = true then 1 else 0) := by
  obtain ⟨uE, vm, iOk, cOk, lOk, pr, actx, pp, bOk, impOk, st, aOk, coOk,
    csk, puOk, prokOk⟩ := e
  cases iOk with
  | false => exact ⟨rfl, rfl⟩
  | true =>
  cases cOk with
  | false => exact ⟨rfl, rfl⟩
  | true =>
  cases lOk with
  | false => exact ⟨rfl, rfl⟩
  | true =>
  cases bOk with
  | false => exact ⟨rfl, rfl⟩
  | true =>
  cases impOk with
  | false => exact ⟨rfl, rfl⟩
  | true =>
  cases st with
  | none =>
    cases aOk with
    | false => exact ⟨rfl, rfl⟩
    | true =>
      cases coOk with
      | true =>
        cases vm with
        | true => exact ⟨rfl, rfl⟩
        | false =>
          cases puOk with
          | false => exact ⟨rfl, rfl⟩
          | true =>
            cases prokOk with
            | false => exact ⟨rfl, rfl⟩
            | true => exact ⟨rfl, rfl⟩
      | false =>
        cases csk with
        | false => exact ⟨rfl, rfl⟩
        | true =>
          cases vm with
          | true => exact ⟨rfl, rfl⟩
          | false =>
            cases puOk with
            | false => exact ⟨rfl, rfl⟩
            | true =>
              cases prokOk with
              | false => exact ⟨rfl, rfl⟩
              | true => exact ⟨rfl, rfl⟩
  | some b =>
    cases b with
    | false =>
      cases vm with
      | true => exact ⟨rfl, rfl⟩
      | false =>
        cases puOk with
        | false => exact ⟨rfl, rfl⟩
        | true =>
          cases prokOk with
          | false => exact ⟨rfl, rfl⟩
          | true => exact ⟨rfl, rfl⟩
    | true =>
      cases aOk with
      | false => exact ⟨rfl, rfl⟩
      | true =>
        cases coOk with
        | true =>
          cases vm with
          | true => exact ⟨rfl, rfl⟩
          | false =>
            cases puOk with
            | false => exact ⟨rfl, rfl⟩
            | true =>
              cases prokOk with
              | false => exact ⟨rfl, rfl⟩
              | true => exact ⟨rfl, rfl⟩
        | false =>
          cases csk with
          | false => exact ⟨rfl, rfl⟩
          | true =>
            cases vm with
            | true => exact ⟨rfl, rfl⟩
            | false =>
              cases puOk with
              | false => exact ⟨rfl, rfl⟩
              | true =>
                cases prokOk with
                | false => exact ⟨rfl, rfl⟩
                | true => exact ⟨rfl, rfl⟩

/-- Counterexample for C3: a run whose only failure is the implementation
phase is a fatal run failure, yet its stream carries three error-typed
events, not exactly one. -/
theorem c3_counterexample :
    implementFails envImplFail = true ∧
    countErrors (agentRun envImplFail).events = 3 ∧
    countErrors (agentRun envImplFail).events ≠ 1 := by
  refine ⟨rfl, rfl, by decide⟩

/-- C5: any uncaught error at any phase is caught at the top level of `run`
and reported as an error event ending the stream; however cleanup in the
`finally` block is skipped whenever verification mode is enabled - even when
the run failed before pausing - not only when the run actually emitted
`pause_for_verification`; with verification mode off, the sandbox is cleaned
up on every path. -/
theorem c5_amended_cleanup (e : RunEnv) :
    (agentRun e).cleanedUp = !e.verificationMode ∧
    ((agentBody e).threw = true →
      (agentRun e).events.getLast? = some (ev .error)) := by
  exact ⟨rfl, fun h => agentRun_last_error_of_threw e h⟩

/-- Witness for C5: a verification-mode run whose clone fails ends in an
error event and its sandbox is not cleaned up. -/
theorem c5_amended_cleanup_witness :
    (agentRun envVerifCloneFail).cleanedUp = false ∧
    (agentRun envVerifCloneFail).events.getLast? = some (ev .error) := by
  exact ⟨(c5_amended_cleanup envVerifCloneFail).1,
    (c5_amended_cleanup envVerifCloneFail).2 rfl⟩

/-- Counterexample for C5: in a verification-mode run that fails during the
clone, no `pause_for_verification` event is ever emitted, yet the sandbox is
not cleaned up - cleanup is keyed on the verification-mode flag, not on
whether the run actually paused. -/
theorem c5_counterexample :
    (agentRun envVerifCloneFail).paused = false ∧
    ((agentRun envVerifCloneFail).events.filter
      (fun x => x.type = EventType.pause_for_verification)) = [] ∧
    (agentRun envVerifCloneFail).cleanedUp = false ∧
    (agentRun envVerifCloneFail).events.getLast? = some (ev .error) := by
  exact ⟨rfl, rfl, rfl, rfl⟩

theorem agentBody_reaches (e : RunEnv) (h : reachesImplement e = true) :
    agentBody e =
      { events := preBranchEvs ++ evp .progress 60 :: (implementStage e).1,
        threw := (implementStage e).2.1,
        paused := (implementStage e).2.2,
        plan := some (createPlanCore e.prompt e.analysisCtx e.parsedPlan) } := by
  simp only [reachesImplement, Bool.and_eq_true] at h
  obtain ⟨⟨⟨h1, h2⟩, h3⟩, h4⟩ := h
  simp [agentBody, h1, h2, h3, h4]

/-- C10: in every non-verification run that reaches the implement phase, the
orchestrator emits the progress-80 event (feature-branch creation) strictly
before the progress-60 event (implementing changes), so the sequence of
progress values on the stream is not monotonically non-decreasing even on a
fully successful run. -/
theorem c10_progress_not_monotone (e : RunEnv)
    (h : reachesImplement e = true) (_hv : e.verificationMode = false) :
    (∃ t, progressValues (agentRun e).events =
      10 :: 20 :: 40 :: 50 :: 80 :: 60 :: t) ∧
    ¬ List.Chain' (· ≤ ·) (progressValues (agentRun e).events) := by
  have hb := agentBody_reaches e h
  have hpv : progressValues (agentRun e).events =
      10 :: 20 :: 40 :: 50 :: 80 :: 60 ::
        List.filterMap (·.progress)
          ((implementStage e).1 ++
            (if (implementStage e).2.1 then [ev .error] else [])) := by
    simp [agentRun, hb, progressValues, preBranchEvs, ev, evp]
  refine ⟨⟨_, hpv⟩, ?_⟩
  intro hch
  rw [hpv] at hch
  simp [List.chain'_cons] at hch

/-- Witness for C10: the fully successful non-verification run reaches the
implement phase and exhibits the 80-before-60 progress regression. -/
theorem c10_progress_not_monotone_witness :
    (∃ t, progressValues (agentRun envSuccess).events =
      10 :: 20 :: 40 :: 50 :: 80 :: 60 :: t) ∧
    ¬ List.Chain' (· ≤ ·) (progressValues (agentRun envSuccess).events) :=
  c10_progress_not_monotone envSuccess rfl rfl

/-- C7: on a fully successful non-verification run, the event types filtered
to the primary phase markers do match a fixed pattern, but not the claimed
one: an additional progress block (the progress events 50, 80 and 60) sits
between the plan markers and the implement markers, so the actual pattern is
`[start, sandbox_create, progress.., analyze.., plan.., progress..,
implement.., progress.., pr_create, pr_created, complete]`. -/
theorem c7_amended_phase_order (e : RunEnv) (h : successRun e = true) :
    matchesSeq actualPhasePattern (primaryTrace (agentRun e).events) = true := by
  obtain ⟨uE, vm, iOk, cOk, lOk, pr, actx, pp, bOk, impOk, st, aOk, coOk,
    csk, puOk, prokOk⟩ := e
  simp only [successRun, reachesPush, reachesCommitEnd, reachesImplement,
    stagingOk, Bool.and_eq_true, Bool.or_eq_true, Bool.not_eq_true'] at h
  obtain ⟨⟨⟨⟨⟨⟨⟨⟨h1, h2⟩, h3⟩, h4⟩, h5⟩, hstag⟩, hvm⟩, hpu⟩, hpr⟩ := h
  subst h1; subst h2; subst h3; subst h4; subst h5
  subst hvm; subst hpu; subst hpr
  cases st with
  | none =>
    rcases hstag with h0 | ⟨ha, hco⟩
    · simp [checkForChangesRun] at h0
    · subst ha
      rcases hco with hco | hck
      · subst hco; rfl
      · subst hck
        cases coOk <;> rfl
  | some b =>
    cases b with
    | false => rfl
    | true =>
      rcases hstag with h0 | ⟨ha, hco⟩
      · simp [checkForChangesRun] at h0
      · subst ha
        rcases hco with hco | hck
        · subst hco; rfl
        · subst hck
          cases coOk <;> rfl

/-- Witness for C7 (amended): the concrete fully successful run matches the
amended pattern. -/
theorem c7_amended_phase_order_witness :
    matchesSeq actualPhasePattern
      (primaryTrace (agentRun envSuccess).events) = true :=
  c7_amended_phase_order envSuccess rfl

/-- Counterexample for C7: the concrete fully successful non-verification
run does not match the claimed pattern, which has no progress block between
the plan and implement markers. -/
theorem c7_counterexample :
    successRun envSuccess = true ∧
    matchesSeq claimedPhasePattern
      (primaryTrace (agentRun envSuccess).events) = false := by
  exact ⟨rfl, rfl⟩

/-- C4: in a verification-mode run that reaches the end of the commit phase,
the stream ends with `pause_for_verification` (not `complete`) and the
sandbox is not cleaned up when the generator returns; however the session is
registered in the process-wide registry (at agent construction) if and only
if the E2B backend is in use - with the local `VirtualSandbox` backend the
session id is never registered, so it is not retrievable from the
registry. -/
theorem c4_amended_verification_pause (e : RunEnv) (sessions0 : List String)
    (sid : String) (hv : e.verificationMode = true)
    (hc : reachesCommitEnd e = true)
    (hfresh : sessions0.contains sid = false) :
    (agentRun e).events.getLast? = some (evp .pause_for_verification 85) ∧
    (agentRun e).paused = true ∧
    (agentRun e).cleanedUp = false ∧
    hasSession (constructorRegistry sessions0 sid e.useE2B) sid = e.useE2B := by
  obtain ⟨uE, vm, iOk, cOk, lOk, pr, actx, pp, bOk, impOk, st, aOk, coOk,
    csk, puOk, prokOk⟩ := e
  have hnot : sid ∉ sessions0 := by
    intro hmem
    simp [hmem] at hfresh
  have hreg : hasSession (constructorRegistry sessions0 sid uE) sid = uE := by
    cases uE <;>
      simp [constructorRegistry, registerSandbox, hasSession, hnot]
  replace hv : vm = true := hv
  subst hv
  simp only [reachesCommitEnd, reachesImplement, stagingOk,
    Bool.and_eq_true, Bool.or_eq_true, Bool.not_eq_true'] at hc
  obtain ⟨⟨⟨⟨⟨h1, h2⟩, h3⟩, h4⟩, h5⟩, hstag⟩ := hc
  subst h1; subst h2; subst h3; subst h4; subst h5
  cases st with
  | none =>
    rcases hstag with h0 | ⟨ha, hco⟩
    · simp [checkForChangesRun] at h0
    · subst ha
      rcases hco with hco | hck
      · subst hco; exact ⟨rfl, rfl, rfl, hreg⟩
      · subst hck
        cases coOk <;> exact ⟨rfl, rfl, rfl, hreg⟩
  | some b =>
    cases b with
    | false => exact ⟨rfl, rfl, rfl, hreg⟩
    | true =>
      rcases hstag with h0 | ⟨ha, hco⟩
      · simp [checkForChangesRun] at h0
      · subst ha
        rcases hco with hco | hck
        · subst hco; exact ⟨rfl, rfl, rfl, hreg⟩
        · subst hck
          cases coOk <;> exact ⟨rfl, rfl, rfl, hreg⟩

/-- Witness for C4 (amended): a verification-mode run on the E2B backend
pauses, keeps its sandbox, and its session id is in the registry. -/
theorem c4_amended_verification_pause_witness :
    (agentRun envPauseE2B).events.getLast? =
      some (evp .pause_for_verification 85) ∧
    (agentRun envPauseE2B).cleanedUp = false ∧
    hasSession (constructorRegistry [] "session-1" envPauseE2B.useE2B)
      "session-1" = true := by
  have h := c4_amended_verification_pause envPauseE2B [] "session-1" rfl rfl
    rfl
  exact ⟨h.1, h.2.2.1, h.2.2.2⟩

/-- Counterexample for C4: a verification-mode run on the local
`VirtualSandbox` backend pauses with a session id that was never registered
in the process-wide registry, so the session is not retrievable by that
id. -/
theorem c4_counterexample :
    envPauseLocal.verificationMode = true ∧
    (agentRun envPauseLocal).events.getLast? =
      some (evp .pause_for_verification 85) ∧
    hasSession (constructorRegistry [] "session-1" envPauseLocal.useE2B)
      "session-1" = false := by
  exact ⟨rfl, rfl, rfl⟩

/-- C1 (code bug): the planner as a whole never reports a terminal planning
failure - `createPlan` converts every failure into a fallback plan, the
fallback can itself be empty (no backend, frontend or key files), and the
orchestrator proceeds to the implement phase without any emptiness check.
In the concrete run below the plan is empty (`filesToModify = []` and
`newFiles = []`), yet the stream contains implement events, no error event,
and ends in `complete`. -/
theorem c1_empty_plan_reaches_implement :
    createPlanCore "" emptyCtx none =
      { filesToModify := [], newFiles := [] } ∧
    (agentRun envSuccess).plan =
      some { filesToModify := [], newFiles := [] } ∧
    (eventTypes (agentRun envSuccess).events).contains
      EventType.implement = true ∧
    (eventTypes (agentRun envSuccess).events).contains
      EventType.error = false ∧
    (agentRun envSuccess).events.getLast? = some (evp .complete 100) := by
  have hplan : createPlanCore "" emptyCtx none =
      { filesToModify := [], newFiles := [] } := by
    simp [createPlanCore, fallbackPlan, emptyCtx, Bool.and_false]
  refine ⟨hplan, ?_, by decide, by decide, by decide⟩
  have h2 : (agentRun envSuccess).plan =
      some (createPlanCore "" emptyCtx none) := rfl
  rw [h2, hplan]

/-- C2: on the `VirtualSandbox` backend, the path-accepting tools that
resolve through `getSecurePath` (`read_file`, `write_file`, `delete_file`,
`list_files`, and the `git_*`, `get_package_info` and `execute_shell` tools
resolving `repoPath` or `workingDir`) reject an argument whose resolved
path does not extend the resolved sandbox root - a failure Tool Result and
no filesystem operation; but the remaining path-accepting tools perform no
traversal check at all: `clone_repository` on the `VirtualSandbox` backend
joins its destination onto the root and attempts `mkdir` plus `git clone`
there unconditionally, and the E2B backend never resolves against the root
(its `write_file` concatenates a relative argument onto the root, or uses
an absolute argument as-is, and attempts the write unconditionally). -/
theorem c2_amended_path_traversal (workDir rel : String) (fsOk : Bool)
    (h : strStartsWith (nodeResolve workDir rel) (resolvedRoot workDir) =
      false) :
    vsPathTool workDir rel fsOk =
      { success := false, attemptedFsOp := false } ∧
    (∀ wd dest ok, vsCloneRepository wd dest ok =
      { success := ok, attemptedFsOp := true }) ∧
    (∀ r ok, e2bWriteFile r ok = { success := ok, attemptedFsOp := true }) := by
  refine ⟨?_, fun wd dest ok => rfl, fun r ok => rfl⟩
  simp [vsPathTool, getSecurePath, h]

/-- Witness for C2 (amended): the escaping path `../escape.txt` is rejected
without any filesystem operation by the `VirtualSandbox` tools. -/
theorem c2_amended_path_traversal_witness :
    strStartsWith (nodeResolve "/tmp/repo" "../escape.txt")
      (resolvedRoot "/tmp/repo") = false ∧
    vsPathTool "/tmp/repo" "../escape.txt" true =
      { success := false, attemptedFsOp := false } := by
  exact ⟨by decide,
    (c2_amended_path_traversal "/tmp/repo" "../escape.txt" true
      (by decide)).1⟩

/-- Counterexample for C2: two path-accepting tool calls whose `..`
arguments resolve outside the sandbox root are still attempted and report
success - no failure Tool Result, and a filesystem mutation outside the
root.  On the `VirtualSandbox` backend, `clone_repository` with destination
`../../etc/repo` targets `/etc/repo`, outside the root `/tmp/agent-1`, and
still attempts `mkdir` plus `git clone` there; on the E2B backend,
`write_file` with `../escape.txt` writes `/tmp/repo/../escape.txt`, that is
`/tmp/escape.txt`, outside `/tmp/repo`. -/
theorem c2_counterexample :
    vsCloneFullPath "/tmp/agent-1" "../../etc/repo" = "/etc/repo" ∧
    strStartsWith (vsCloneFullPath "/tmp/agent-1" "../../etc/repo")
      (resolvedRoot "/tmp/agent-1") = false ∧
    vsCloneRepository "/tmp/agent-1" "../../etc/repo" true =
      { success := true, attemptedFsOp := true } ∧
    e2bWriteFullPath "../escape.txt" = "/tmp/repo/../escape.txt" ∧
    resolvedRoot (e2bWriteFullPath "../escape.txt") = "/tmp/escape.txt" ∧
    strStartsWith (resolvedRoot (e2bWriteFullPath "../escape.txt"))
      (resolvedRoot e2bWorkDir) = false ∧
    e2bWriteFile "../escape.txt" true =
      { success := true, attemptedFsOp := true } := by
  exact ⟨by decide, by decide, rfl, by decide, by decide, by decide, rfl⟩

/-- C6: with the sandbox initialized, `callTool` on either backend returns a
Tool Result for every catalogued tool name and never throws for domain
failures (a throwing executor is converted into a failed result on
`VirtualSandbox`, and each E2B tool catches its own domain errors), and it
throws for names outside the catalogue; however `callTool` also throws when
the lazy sandbox initialization performed inside the call fails, so "throws
only for unknown tool names" is not literally true. -/
theorem c6_amended_calltool (name : String) (oc : ExecOutcome)
    (r0 : ToolResultE) :
    (name ∈ vsToolNames → ∃ res, vsCallTool true name oc = Except.ok res) ∧
    (∀ m, name ∈ vsToolNames →
      vsCallTool true name (ExecOutcome.throws m) =
        Except.ok { success := false,
                    error := some ("Tool " ++ name ++ " failed: " ++ m) }) ∧
    (name ∉ vsToolNames →
      vsCallTool true name oc = Except.error ("Tool not found: " ++ name)) ∧
    (name ∈ e2bToolNames → e2bCallTool true name r0 = Except.ok r0) ∧
    (name ∉ e2bToolNames →
      e2bCallTool true name r0 = Except.error ("Tool not found: " ++ name)) := by
  refine ⟨?_, ?_, ?_, ?_, ?_⟩
  · intro h
    cases oc with
    | returns r => exact ⟨r, by simp [vsCallTool, h]⟩
    | throws m =>
      exact ⟨{ success := false,
               error := some ("Tool " ++ name ++ " failed: " ++ m) },
        by simp [vsCallTool, h]⟩
  · intro m h
    simp [vsCallTool, h]
  · intro h
    simp [vsCallTool, h]
  · intro h
    simp [e2bCallTool, h]
  · intro h
    simp [e2bCallTool, h]

/-- Witness for C6 (amended): a throwing `write_file` executor on the local
backend surfaces as a failed Tool Result, and a failed `git_push` on the E2B
backend is returned, not thrown. -/
theorem c6_amended_calltool_witness :
    vsCallTool true "write_file" (ExecOutcome.throws "ENOENT") =
      Except.ok { success := false,
                  error := some "Tool write_file failed: ENOENT" } ∧
    e2bCallTool true "git_push" { success := false, error := some "conflict" }
      = Except.ok { success := false, error := some "conflict" } := by
  constructor
  · exact (c6_amended_calltool "write_file"
      (ExecOutcome.throws "ENOENT") { success := true }).2.1 "ENOENT"
      (by decide)
  · exact (c6_amended_calltool "git_push"
      (ExecOutcome.returns { success := true })
      { success := false, error := some "conflict" }).2.2.2.1 (by decide)

/-- Counterexample for C6: `callTool` with a catalogued tool name still
throws on both backends when the lazy sandbox initialization fails, so the
claim that it throws only for names outside the catalogue is false. -/
theorem c6_counterexample :
    ("read_file" ∈ vsToolNames) ∧
    vsCallTool false "read_file" (ExecOutcome.returns { success := true }) =
      Except.error "Failed to initialize sandbox" ∧
    ("read_file" ∈ e2bToolNames) ∧
    e2bCallTool false "read_file" { success := true } =
      Except.error "Failed to initialize E2B sandbox" := by
  have h1 : "read_file" ∈ vsToolNames := by decide
  have h2 : "read_file" ∈ e2bToolNames := by decide
  refine ⟨h1, rfl, h2, ?_⟩
  simp [e2bCallTool, h2]
